import Mathlib

/-!
Shallow embedding of the snowball image-canvas application (JavaScript) in
Lean 4, used to settle specification claims about its layout engine, drag
and resize controllers, state store, storage abstraction and event bus.

Numbers are modelled as rationals (`ℚ`); `Math.floor` is `Int.floor` and
`Math.round` is `⌊x + 1/2⌋` (JavaScript rounds half toward +∞).  Values
that JavaScript code inspects for finiteness are modelled by `JsNum`,
which separates finite numbers from `NaN` and the infinities.
-/

/-- jsFloor models JavaScript `Math.floor` on a finite number, returned as
a rational for further arithmetic. -/
def jsFloor (x : ℚ) : ℚ := (⌊x⌋ : ℚ)

/-- jsRound models JavaScript `Math.round` on a finite number: round half
toward positive infinity. -/
def jsRound (x : ℚ) : ℚ := (⌊x + 1/2⌋ : ℚ)

/-- JsNum models a JavaScript number as seen by code that distinguishes
finite values from `NaN` and the infinities. -/
inductive JsNum where
  | fin (q : ℚ)
  | nan
  | posInf
  | negInf
deriving DecidableEq, Repr

namespace JsNum

/-- isFinite models `Number.isFinite`. -/
def isFinite : JsNum → Bool
  | fin _ => true
  | _ => false

/-- jsLe models the JavaScript comparison `a <= b`; any comparison with
`NaN` is false. -/
def jsLe : JsNum → JsNum → Bool
  | fin a, fin b => decide (a ≤ b)
  | nan, _ => false
  | _, nan => false
  | negInf, _ => true
  | _, posInf => true
  | posInf, _ => false
  | fin _, negInf => false

/-- jsLt models the JavaScript comparison `a < b`; any comparison with
`NaN` is false. -/
def jsLt : JsNum → JsNum → Bool
  | fin a, fin b => decide (a < b)
  | nan, _ => false
  | _, nan => false
  | negInf, negInf => false
  | negInf, _ => true
  | posInf, _ => false
  | fin _, posInf => true
  | fin _, negInf => false

/-- truthy models JavaScript truthiness of a number: `0` and `NaN` are
falsy, every other number is truthy. -/
def truthy : JsNum → Bool
  | fin q => decide (q ≠ 0)
  | nan => false
  | _ => true

end JsNum

/-- assocGet looks a key up in an association list, returning the value of
the first matching entry; this models property access on a JavaScript
object held as a list of key/value pairs. -/
def assocGet {α : Type} (m : List (String × α)) (k : String) : Option α :=
  (m.find? (fun p => p.1 == k)).map (·.2)

/-- assocPut models JavaScript property assignment `obj[k] = v`: an
existing key is updated in place, a fresh key is appended at the end. -/
def assocPut {α : Type} (m : List (String × α)) (k : String) (v : α) :
    List (String × α) :=
  if (m.find? (fun p => p.1 == k)).isSome then
    m.map (fun p => if p.1 == k then (p.1, v) else p)
  else
    m ++ [(k, v)]

/-- assocRemove models JavaScript `delete obj[k]` / `Map.delete`. -/
def assocRemove {α : Type} (m : List (String × α)) (k : String) :
    List (String × α) :=
  m.filter (fun p => p.1 != k)

namespace ImageManager

/-- overlapsBuffered is the axis-aligned bounding-box intersection test
with a spacing buffer used by `ImageManager.wouldOverlap`
(src/scripts/managers/ImageManager.js lines 404-407): the candidate box
`(x, y, w, h)` against another box `(ox, oy, ow, oh)`. -/
def overlapsBuffered (buffer x y w h ox oy ow oh : ℚ) : Bool :=
  decide (x < ox + ow + buffer) && decide (x + w + buffer > ox) &&
  decide (y + h + buffer > oy) && decide (y < oy + oh + buffer)

/-- wouldOverlap embeds `ImageManager.wouldOverlap` (ImageManager.js lines
394-413): it scans the parallel `positions` / `sizes` arrays and reports
whether the candidate box overlaps any tile other than `excludeIndex`,
using the buffer `config.minSpacing = 20`.  An index whose size entry is
missing contributes `false` (in JavaScript the comparisons involve
`undefined` and evaluate to false). -/
def wouldOverlap (positions sizes : List (ℚ × ℚ)) (x y w h : ℚ)
    (excludeIndex : ℤ) : Bool :=
  (List.range positions.length).any (fun i =>
    if (i : ℤ) = excludeIndex then false
    else
      match positions[i]?, sizes[i]? with
      | some po, some so =>
          overlapsBuffered 20 x y w h po.1 po.2 so.1 so.2
      | _, _ => false)

/-- calculatePosition embeds `ImageManager.calculatePosition`
(ImageManager.js lines 295-336): row-major grid placement whose column
count is computed from the current tile's own width,
`cols = max(1, floor(screenWidth / (width + 20)))`, with
`x = col*(width+20) + 10` and `y = row*(height+20) + 10`. -/
def calculatePosition (screenWidth : ℚ) (size : ℚ × ℚ) (index : ℕ) :
    ℚ × ℚ :=
  let w := size.1
  let h := size.2
  let cols : ℕ := max 1 (Int.toNat ⌊screenWidth / (w + 20)⌋)
  let row := index / cols
  let col := index % cols
  ((col : ℚ) * (w + 20) + 10, (row : ℚ) * (h + 20) + 10)

/-- scaleSize embeds the per-image body of
`ImageManager.calculateScaledSizes` (ImageManager.js lines 132-156):
area-ratio bucketed downscaling (goalPixels = 150000; ratio > 16 gives
1/8, ratio > 4 gives 1/4, otherwise 1/2, each dimension floored), then a
width clamp to `effectiveWidth - 10` with the height rescaled against the
half-scale baseline `w / 2`. -/
def scaleSize (goalPixels effectiveWidth : ℚ) (orig : ℚ × ℚ) : ℚ × ℚ :=
  let w := orig.1
  let h := orig.2
  let actualPixels := w * h
  let scaled : ℚ × ℚ :=
    if actualPixels / goalPixels > 16 then (jsFloor (w / 8), jsFloor (h / 8))
    else if actualPixels / goalPixels > 4 then
      (jsFloor (w / 4), jsFloor (h / 4))
    else (jsFloor (w / 2), jsFloor (h / 2))
  if scaled.1 + 10 > effectiveWidth then
    let cw := effectiveWidth - 10
    (cw, jsFloor (scaled.2 * (cw / (w / 2))))
  else scaled

/-- calculateScaledSizes embeds `ImageManager.calculateScaledSizes`
(ImageManager.js lines 109-159) applied to a metadata list of original
`[width, height]` pairs. -/
def calculateScaledSizes (effectiveWidth : ℚ) (metadata : List (ℚ × ℚ)) :
    List (ℚ × ℚ) :=
  metadata.map (scaleSize 150000 effectiveWidth)

/-- placeFresh embeds the fresh-placement path of
`ImageManager.loadImagesProgressively` + `loadSingleImage` with no saved
state: tile `i` receives `calculatePosition` of its own scaled size at
index `i`. -/
def placeFresh (screenWidth : ℚ) (sizes : List (ℚ × ℚ)) : List (ℚ × ℚ) :=
  (List.range sizes.length).map (fun i =>
    calculatePosition screenWidth (sizes.getD i (0, 0)) i)

end ImageManager

namespace ImageManager

/-- nth reads a parallel-array entry with JavaScript-style default. -/
def nth (l : List (ℚ × ℚ)) (i : ℕ) : ℚ × ℚ := l.getD i (0, 0)

/-- Layout is the pair of parallel arrays `this.positions` / `this.sizes`
kept by ImageManager. -/
structure Layout where
  positions : List (ℚ × ℚ)
  sizes : List (ℚ × ℚ)

/-- tilesDisjoint states that two placed tiles pass the buffered
intersection test negatively (spacing buffer 20 on both sides). -/
def tilesDisjoint (p1 s1 p2 s2 : ℚ × ℚ) : Prop :=
  overlapsBuffered 20 p1.1 p1.2 s1.1 s1.2 p2.1 p2.2 s2.1 s2.2 = false

/-- layoutOk is the no-overlap invariant: every pair of distinct tiles is
disjoint under the buffered test. -/
def layoutOk (L : Layout) : Prop :=
  ∀ i j, i < L.positions.length → j < L.positions.length → i ≠ j →
    tilesDisjoint (nth L.positions i) (nth L.sizes i)
      (nth L.positions j) (nth L.sizes j)

/-- freshGrid is the layout produced by placing `n` tiles of the common
size `(w, h)` with `calculatePosition`, exactly as the fresh-placement
path does for a uniform collection. -/
def freshGrid (W w h : ℚ) (n : ℕ) : Layout :=
  ⟨(List.range n).map (calculatePosition W (w, h)), List.replicate n (w, h)⟩

/-- DragReach describes every layout reachable from the fresh uniform
grid by committed drags: a drag of tile `i` to `p` commits only when
`wouldOverlap` (excluding `i`) reports false, mirroring
`DragHandler.endDrag`'s accept branch. -/
inductive DragReach (W w h : ℚ) : Layout → Prop where
  | init (n : ℕ) : DragReach W w h (freshGrid W w h n)
  | drag (L : Layout) (hL : DragReach W w h L) (i : ℕ) (p : ℚ × ℚ)
      (hi : i < L.positions.length)
      (hok : wouldOverlap L.positions L.sizes p.1 p.2 w h (i : ℤ) = false) :
      DragReach W w h ⟨L.positions.set i p, L.sizes⟩

end ImageManager

namespace ImageManager

/-- overlapsBuffered_true_iff characterizes the buffered intersection test
as the conjunction of the four strict inequalities of the source. -/
lemma overlapsBuffered_true_iff (b x y w h ox oy ow oh : ℚ) :
    overlapsBuffered b x y w h ox oy ow oh = true ↔
      (x < ox + ow + b ∧ x + w + b > ox ∧ y + h + b > oy ∧
        y < oy + oh + b) := by
  simp [overlapsBuffered, and_assoc]

/-- tilesDisjoint_symm: the buffered intersection test is symmetric in the
two tiles. -/
lemma tilesDisjoint_symm {p1 s1 p2 s2 : ℚ × ℚ}
    (h : tilesDisjoint p1 s1 p2 s2) : tilesDisjoint p2 s2 p1 s1 := by
  unfold tilesDisjoint at h ⊢
  rw [Bool.eq_false_iff] at h ⊢
  intro h2
  apply h
  rw [overlapsBuffered_true_iff] at h2 ⊢
  obtain ⟨a, b, c, d⟩ := h2
  exact ⟨by linarith, by linarith, by linarith, by linarith⟩

/-- nth_eq_getElem rewrites the defaulted accessor to a checked access
when the index is in range. -/
lemma nth_eq_getElem {l : List (ℚ × ℚ)} {j : ℕ} (hj : j < l.length) :
    nth l j = l[j] := by
  simp [nth, List.getD_eq_getElem?_getD, List.getElem?_eq_getElem hj]

/-- wouldOverlap_false_elim extracts, from a negative `wouldOverlap`
answer, the disjointness of the candidate box from each individual
non-excluded tile. -/
lemma wouldOverlap_false_elim {ps ss : List (ℚ × ℚ)} {x y w h : ℚ}
    {ex : ℤ} (hov : wouldOverlap ps ss x y w h ex = false) {j : ℕ}
    (hj : j < ps.length) (hjs : j < ss.length) (hne : (j : ℤ) ≠ ex) :
    overlapsBuffered 20 x y w h (nth ps j).1 (nth ps j).2
      (nth ss j).1 (nth ss j).2 = false := by
  unfold wouldOverlap at hov
  rw [List.any_eq_false] at hov
  have hjj := hov j (List.mem_range.mpr hj)
  rw [if_neg hne, List.getElem?_eq_getElem hj, List.getElem?_eq_getElem hjs]
    at hjj
  rw [nth_eq_getElem hj, nth_eq_getElem hjs]
  simpa using hjj

/-- nth_set_ne: setting one index leaves the others unchanged. -/
lemma nth_set_ne (l : List (ℚ × ℚ)) {i j : ℕ} (a : ℚ × ℚ) (hij : i ≠ j) :
    nth (l.set i a) j = nth l j := by
  simp [nth, List.getD_eq_getElem?_getD, List.getElem?_set_ne hij]

/-- nth_set_self: setting an in-range index stores the new value there. -/
lemma nth_set_self (l : List (ℚ × ℚ)) {i : ℕ} (a : ℚ × ℚ)
    (hi : i < l.length) : nth (l.set i a) i = a := by
  simp [nth, List.getD_eq_getElem?_getD, List.getElem?_set_self, hi]

/-- calculatePosition_pair_disjoint: two distinct indices of the uniform
grid receive tiles whose buffered boxes do not intersect — the column
stride is `w + 20` and the row stride is `h + 20`, both strictly wider
than the buffered test tolerates. -/
lemma calculatePosition_pair_disjoint (W w h : ℚ) (hw : 0 < w)
    (hh : 0 < h) {i j : ℕ} (hij : i ≠ j) :
    tilesDisjoint (calculatePosition W (w, h) i) (w, h)
      (calculatePosition W (w, h) j) (w, h) := by
  unfold tilesDisjoint
  rw [Bool.eq_false_iff, Ne, overlapsBuffered_true_iff]
  rintro ⟨h1, h2, h3, h4⟩
  simp only [calculatePosition] at h1 h2 h3 h4
  set c : ℕ := max 1 (Int.toNat ⌊W / (w + 20)⌋) with hc
  have hw20 : (0 : ℚ) < w + 20 := by linarith
  have hh20 : (0 : ℚ) < h + 20 := by linarith
  have hm1 : ((i % c : ℕ) : ℚ) < ((j % c : ℕ) : ℚ) + 1 := by
    by_contra hcon
    push_neg at hcon
    have := mul_le_mul_of_nonneg_right hcon (le_of_lt hw20)
    nlinarith
  have hm2 : ((j % c : ℕ) : ℚ) < ((i % c : ℕ) : ℚ) + 1 := by
    by_contra hcon
    push_neg at hcon
    have := mul_le_mul_of_nonneg_right hcon (le_of_lt hw20)
    nlinarith
  have hd1 : ((i / c : ℕ) : ℚ) < ((j / c : ℕ) : ℚ) + 1 := by
    by_contra hcon
    push_neg at hcon
    have := mul_le_mul_of_nonneg_right hcon (le_of_lt hh20)
    nlinarith
  have hd2 : ((j / c : ℕ) : ℚ) < ((i / c : ℕ) : ℚ) + 1 := by
    by_contra hcon
    push_neg at hcon
    have := mul_le_mul_of_nonneg_right hcon (le_of_lt hh20)
    nlinarith
  have hm1n : i % c < j % c + 1 := by exact_mod_cast hm1
  have hm2n : j % c < i % c + 1 := by exact_mod_cast hm2
  have hd1n : i / c < j / c + 1 := by exact_mod_cast hd1
  have hd2n : j / c < i / c + 1 := by exact_mod_cast hd2
  have hmod : i % c = j % c := by omega
  have hdiv : i / c = j / c := by omega
  exact hij (by rw [← Nat.div_add_mod i c, ← Nat.div_add_mod j c, hmod, hdiv])

/-- freshGrid_len: the fresh grid has one position per tile. -/
lemma freshGrid_len (W w h : ℚ) (n : ℕ) :
    (freshGrid W w h n).positions.length = n := by
  simp [freshGrid]

/-- freshGrid_pos reads position `j` of the fresh grid. -/
lemma freshGrid_pos (W w h : ℚ) {n j : ℕ} (hj : j < n) :
    nth (freshGrid W w h n).positions j = calculatePosition W (w, h) j := by
  simp [freshGrid, nth, List.getD_eq_getElem?_getD, List.getElem?_map,
    List.getElem?_range hj]

/-- freshGrid_size reads size `j` of the fresh grid. -/
lemma freshGrid_size (W w h : ℚ) {n j : ℕ} (hj : j < n) :
    nth (freshGrid W w h n).sizes j = (w, h) := by
  simp [freshGrid, nth, List.getD_eq_getElem?_getD, List.getElem?_replicate,
    hj]

/-- dragReach_sizes: drags never change sizes, so every reachable layout
keeps the uniform size array of the fresh grid. -/
lemma dragReach_sizes {W w h : ℚ} {L : Layout} (hL : DragReach W w h L) :
    L.sizes = List.replicate L.positions.length (w, h) := by
  induction hL with
  | init n => simp [freshGrid]
  | drag L hL i p hi hok ih =>
      simpa [List.length_set] using ih

end ImageManager

namespace ImageManager

/-- C1 (amended): starting from the fresh uniform-size grid placement,
every layout reachable by committed drags satisfies the buffered
no-overlap invariant. -/
theorem dragReach_layoutOk (W w h : ℚ) (hw : 0 < w) (hh : 0 < h)
    {L : Layout} (hL : DragReach W w h L) : layoutOk L := by
  induction hL with
  | init n =>
      intro a b ha hb hab
      rw [freshGrid_len] at ha hb
      rw [freshGrid_pos W w h ha, freshGrid_pos W w h hb,
        freshGrid_size W w h ha, freshGrid_size W w h hb]
      exact calculatePosition_pair_disjoint W w h hw hh hab
  | drag L hL i p hi hok ih =>
      intro a b ha hb hab
      simp only [List.length_set] at ha hb
      have hsz := dragReach_sizes hL
      have hszlen : L.sizes.length = L.positions.length := by
        rw [hsz, List.length_replicate]
      have hsnth : ∀ k, k < L.positions.length → nth L.sizes k = (w, h) := by
        intro k hk
        rw [hsz]
        simp [nth, List.getD_eq_getElem?_getD, List.getElem?_replicate, hk]
      have hdisj : ∀ k, k < L.positions.length → k ≠ i →
          tilesDisjoint p (w, h) (nth L.positions k) (nth L.sizes k) := by
        intro k hk hki
        have hkz : (k : ℤ) ≠ (i : ℤ) := by exact_mod_cast hki
        have hko := wouldOverlap_false_elim hok hk (hszlen ▸ hk) hkz
        simpa [tilesDisjoint, hsnth k hk] using hko
      by_cases hai : a = i
      · subst hai
        show tilesDisjoint (nth (L.positions.set a p) a) (nth L.sizes a)
          (nth (L.positions.set a p) b) (nth L.sizes b)
        rw [nth_set_self L.positions p ha, nth_set_ne L.positions p hab,
          hsnth a ha]
        exact hdisj b hb (fun hq => hab hq.symm)
      · by_cases hbi : b = i
        · subst hbi
          show tilesDisjoint (nth (L.positions.set b p) a) (nth L.sizes a)
            (nth (L.positions.set b p) b) (nth L.sizes b)
          rw [nth_set_self L.positions p hb,
            nth_set_ne L.positions p (fun hq => hab hq.symm), hsnth b hb]
          exact tilesDisjoint_symm (hdisj a ha hai)
        · show tilesDisjoint (nth (L.positions.set i p) a) (nth L.sizes a)
            (nth (L.positions.set i p) b) (nth L.sizes b)
          rw [nth_set_ne L.positions p (fun hq => hai hq.symm),
            nth_set_ne L.positions p (fun hq => hbi hq.symm)]
          exact ih a b ha hb hab

/-- Witness for `dragReach_layoutOk`: two fresh 100x100 tiles on an
800-wide canvas are disjoint under the buffered test. -/
theorem dragReach_layoutOk_witness :
    tilesDisjoint (nth (freshGrid 800 100 100 2).positions 0)
      (nth (freshGrid 800 100 100 2).sizes 0)
      (nth (freshGrid 800 100 100 2).positions 1)
      (nth (freshGrid 800 100 100 2).sizes 1) :=
  dragReach_layoutOk 800 100 100 (by norm_num) (by norm_num)
    (DragReach.init 2) 0 1 (by decide) (by decide) (by decide)

/-- placeFresh_250_50: on an 800-wide canvas the fresh placement of a
250x250 tile followed by a 50x50 tile computes positions (10, 10) and
(80, 10). -/
lemma placeFresh_250_50 :
    placeFresh 800 [(250, 250), (50, 50)] = [(10, 10), (80, 10)] := by
  have f1 : (⌊(800 : ℚ) / (250 + 20)⌋ : ℤ) = 2 := by norm_num
  have f2 : (⌊(800 : ℚ) / (50 + 20)⌋ : ℤ) = 11 := by norm_num
  norm_num [placeFresh, calculatePosition, List.range_succ, f1, f2,
    show Int.toNat 2 = 2 from rfl, show Int.toNat 11 = 11 from rfl]

/-- layout_250_50_not_ok: the layout produced by the fresh placement of a
250x250 tile and then a 50x50 tile on an 800-wide canvas violates the
buffered no-overlap invariant — the 50x50 tile at (80, 10) lands inside
the 250x250 tile at (10, 10). -/
lemma layout_250_50_not_ok :
    ¬ layoutOk ⟨placeFresh 800 [(250, 250), (50, 50)],
        [(250, 250), (50, 50)]⟩ := by
  intro hok
  have h01 := hok 0 1 (by decide) (by decide) (by decide)
  unfold tilesDisjoint at h01
  norm_num [placeFresh_250_50, nth, overlapsBuffered] at h01

/-- C1 counterexample: the fresh grid placement with each tile's own
dimensions places a 250x250 tile at (10, 10) and then a 50x50 tile at
(80, 10) on an 800-wide canvas — the second tile lands inside the first,
so the claimed no-overlap invariant fails already for two fresh tiles of
different sizes with no drag at all. -/
theorem placeFresh_overlap_cex :
    ¬ layoutOk ⟨placeFresh 800 [(250, 250), (50, 50)],
        [(250, 250), (50, 50)]⟩ :=
  layout_250_50_not_ok

end ImageManager

namespace DragHandler

/-- DragEvent models the two events `DragHandler.endDrag` can emit:
`drag:cancelled` with reason and positions, and `drag:end` with the final
and previous positions. -/
inductive DragEvent where
  | cancelled (index : ℕ) (reason : String)
      (originalPosition attemptedPosition : ℚ × ℚ)
  | dragEnd (index : ℕ) (position previousPosition : ℚ × ℚ)
deriving DecidableEq, Repr

/-- DragEndResult carries the dragged tile's position after `endDrag`
finishes, together with the events emitted by it. -/
structure DragEndResult where
  tilePosition : ℚ × ℚ
  events : List DragEvent
deriving DecidableEq, Repr

/-- endDrag embeds `DragHandler.endDrag` (DragHandler.js lines 246-299):
the final overlap re-check via `ImageManager.wouldOverlap` (through
`checkOverlap`, which excludes the dragged index and passes the dragged
tile's own width and height); an overlapping release reverts the tile to
the drag-start position and emits only `drag:cancelled` with reason
`overlap`; otherwise the tile stays at the final position and only
`drag:end` is emitted. -/
def endDrag (positions sizes : List (ℚ × ℚ)) (index : ℕ) (w h : ℚ)
    (initialPosition finalPosition : ℚ × ℚ) : DragEndResult :=
  if ImageManager.wouldOverlap positions sizes finalPosition.1
      finalPosition.2 w h (index : ℤ) then
    ⟨initialPosition,
      [DragEvent.cancelled index "overlap" initialPosition finalPosition]⟩
  else
    ⟨finalPosition, [DragEvent.dragEnd index finalPosition initialPosition]⟩

/-- C2: a drag is committed or reverted atomically.  If the release
position overlaps any other tile (buffered), the tile position is exactly
the pre-drag position, only `drag:cancelled` with reason `overlap` is
emitted and no `drag:end` occurs (so nothing is persisted); otherwise
only `drag:end` with the final position is emitted. -/
theorem endDrag_commit_or_revert (positions sizes : List (ℚ × ℚ))
    (index : ℕ) (w h : ℚ) (initialPosition finalPosition : ℚ × ℚ) :
    (ImageManager.wouldOverlap positions sizes finalPosition.1
        finalPosition.2 w h (index : ℤ) = true →
      (endDrag positions sizes index w h initialPosition
          finalPosition).tilePosition = initialPosition ∧
      (endDrag positions sizes index w h initialPosition
          finalPosition).events =
        [DragEvent.cancelled index "overlap" initialPosition
          finalPosition] ∧
      ∀ p q, DragEvent.dragEnd index p q ∉
        (endDrag positions sizes index w h initialPosition
          finalPosition).events) ∧
    (ImageManager.wouldOverlap positions sizes finalPosition.1
        finalPosition.2 w h (index : ℤ) = false →
      (endDrag positions sizes index w h initialPosition
          finalPosition).tilePosition = finalPosition ∧
      (endDrag positions sizes index w h initialPosition
          finalPosition).events =
        [DragEvent.dragEnd index finalPosition initialPosition] ∧
      ∀ a r p q, DragEvent.cancelled a r p q ∉
        (endDrag positions sizes index w h initialPosition
          finalPosition).events) := by
  constructor
  · intro hov
    refine ⟨by simp [endDrag, hov], by simp [endDrag, hov], ?_⟩
    intro p q
    simp [endDrag, hov]
  · intro hov
    refine ⟨by simp [endDrag, hov], by simp [endDrag, hov], ?_⟩
    intro a r p q
    simp [endDrag, hov]

/-- Witness for `endDrag_commit_or_revert`: releasing tile 0 of size
50x50 directly on top of tile 1 (at (100, 0), same size) reverts it to
its start position (0, 0). -/
theorem endDrag_commit_or_revert_witness :
    (endDrag [(0, 0), (100, 0)] [(50, 50), (50, 50)] 0 50 50 (0, 0)
        (100, 0)).tilePosition = (0, 0) ∧
    (endDrag [(0, 0), (100, 0)] [(50, 50), (50, 50)] 0 50 50 (0, 0)
        (285, 0)).tilePosition = (285, 0) := by
  constructor
  · exact ((endDrag_commit_or_revert [(0, 0), (100, 0)]
      [(50, 50), (50, 50)] 0 50 50 (0, 0) (100, 0)).1
      (by norm_num [ImageManager.wouldOverlap,
        ImageManager.overlapsBuffered, List.range_succ])).1
  · exact ((endDrag_commit_or_revert [(0, 0), (100, 0)]
      [(50, 50), (50, 50)] 0 50 50 (0, 0) (285, 0)).2
      (by norm_num [ImageManager.wouldOverlap,
        ImageManager.overlapsBuffered, List.range_succ])).1

end DragHandler

namespace ImageManager

/-- scaledSizes_scenario: the code scales a 1000x1000 image by 1/4 (its
area ratio 1000000/150000 lies in (4, 16]) to 250x250 — with no width
clamp, since 250 + 10 does not exceed 800 — and a 100x100 image by 1/2
to 50x50. -/
lemma scaledSizes_scenario :
    calculateScaledSizes 800 [(1000, 1000), (100, 100)] =
      [(250, 250), (50, 50)] := by
  norm_num [calculateScaledSizes, scaleSize, jsFloor]

/-- C6 counterexample: on the scenario metadata and canvas width 800 the
code computes 250x250 for a.png (quarter scale, no clamp) — not the
claimed half-size 500x500 clamped to width 790 — and placing the two
tiles fresh in the order [a.png, b.png] yields overlapping positions
(10, 10) and (80, 10). -/
theorem scalingScenario_cex :
    calculateScaledSizes 800 [(1000, 1000), (100, 100)] =
      [(250, 250), (50, 50)] ∧
    ((250 : ℚ), (250 : ℚ)) ≠ ((790 : ℚ), (790 : ℚ)) ∧
    ¬ layoutOk ⟨placeFresh 800
        (calculateScaledSizes 800 [(1000, 1000), (100, 100)]),
        calculateScaledSizes 800 [(1000, 1000), (100, 100)]⟩ := by
  refine ⟨scaledSizes_scenario, by norm_num, ?_⟩
  rw [scaledSizes_scenario]
  exact layout_250_50_not_ok

/-- placeFresh_50_250: in the opposite placement order the 50x50 tile
goes to (10, 10) and the 250x250 tile to (280, 10). -/
lemma placeFresh_50_250 :
    placeFresh 800 [(50, 50), (250, 250)] = [(10, 10), (280, 10)] := by
  have f1 : (⌊(800 : ℚ) / (250 + 20)⌋ : ℤ) = 2 := by norm_num
  have f2 : (⌊(800 : ℚ) / (50 + 20)⌋ : ℤ) = 11 := by norm_num
  norm_num [placeFresh, calculatePosition, List.range_succ, f1, f2,
    show Int.toNat 2 = 2 from rfl, show Int.toNat 11 = 11 from rfl]

/-- C6 (amended): with the scenario metadata, empty storage and canvas
width 800 the code yields 250x250 for a.png (quarter scale, area ratio
about 6.67, no width clamp since 260 <= 800) and 50x50 for b.png; in the
session order [b.png, a.png] the fresh grid placement puts them at
(10, 10) and (280, 10), which are distinct, non-overlapping cells, while
the order [a.png, b.png] places them overlapping (see the
counterexample). -/
theorem scalingScenario_amended :
    calculateScaledSizes 800 [(1000, 1000), (100, 100)] =
      [(250, 250), (50, 50)] ∧
    placeFresh 800 [(50, 50), (250, 250)] = [(10, 10), (280, 10)] ∧
    layoutOk ⟨[(10, 10), (280, 10)], [(50, 50), (250, 250)]⟩ := by
  refine ⟨scaledSizes_scenario, placeFresh_50_250, ?_⟩
  intro i j hi hj hij
  have hi2 : i < 2 := by simpa using hi
  have hj2 : j < 2 := by simpa using hj
  interval_cases i <;> interval_cases j <;>
    first
      | omega
      | (unfold tilesDisjoint; norm_num [nth, overlapsBuffered])

end ImageManager

namespace ResizeHandler

/-- RHConfig mirrors the `ResizeHandler` configuration defaults
(ResizeHandler.js lines 22-29). -/
structure RHConfig where
  minSize : ℚ := 50
  maxSize : ℚ := 2000
  preserveAspect : Bool := true
  snapToGrid : Bool := false
  gridSize : ℚ := 10
deriving Repr

/-- applySizeConstraints embeds `ResizeHandler.applySizeConstraints`
(ResizeHandler.js lines 263-288): clamp width and height independently to
`[minSize, maxSize]`; when preserving aspect ratio, recompute height from
the clamped width, and if the recomputed height violates a bound, set
height to that bound and recompute width as `height * aspectR` —
without re-clamping the recomputed width. -/
def applySizeConstraints (cfg : RHConfig) (aspectR width height : ℚ) :
    ℚ × ℚ :=
  let w1 := max cfg.minSize width
  let h1 := max cfg.minSize height
  let w2 := min cfg.maxSize w1
  let h2 := min cfg.maxSize h1
  if cfg.preserveAspect then
    let h3 := w2 / aspectR
    if h3 > cfg.maxSize then (cfg.maxSize * aspectR, cfg.maxSize)
    else if h3 < cfg.minSize then (cfg.minSize * aspectR, cfg.minSize)
    else (w2, h3)
  else (w2, h2)

/-- updateResizeSize embeds `ResizeHandler.updateResizeSize`
(ResizeHandler.js lines 191-233) as a function of the resize-start state
and the current pointer position, returning the size carried by the
emitted `resize:move` event: width follows the pointer delta, height is
derived from the width via the captured aspect ratio (default) or follows
the pointer delta, then `applySizeConstraints`, then optional grid
snapping with the dependent dimension re-derived from the snapped
width. -/
def updateResizeSize (cfg : RHConfig)
    (initialW initialH aspectR startX startY clientX clientY : ℚ) :
    ℚ × ℚ :=
  let deltaX := clientX - startX
  let deltaY := clientY - startY
  let newWidth := initialW + deltaX
  let newHeight :=
    if cfg.preserveAspect then newWidth / aspectR
    else initialH + deltaY
  let c := applySizeConstraints cfg aspectR newWidth newHeight
  if cfg.snapToGrid then
    let sw := jsRound (c.1 / cfg.gridSize) * cfg.gridSize
    let sh :=
      if cfg.preserveAspect then sw / aspectR
      else jsRound (c.2 / cfg.gridSize) * cfg.gridSize
    (sw, sh)
  else c

/-- resizeMoves is the stream of sizes emitted by `resize:move` for a
sequence of pointer positions during one resize interaction (each sample
is computed from the resize-start state and the current pointer). -/
def resizeMoves (cfg : RHConfig)
    (initialW initialH aspectR startX startY : ℚ)
    (pointer : List (ℚ × ℚ)) : List (ℚ × ℚ) :=
  pointer.map (fun q =>
    updateResizeSize cfg initialW initialH aspectR startX startY
      q.1 q.2)

end ResizeHandler

namespace ResizeHandler

/-- C3 (amended): `applySizeConstraints` keeps both dimensions inside
`[minSize, maxSize]` provided the captured aspect ratio lies within
`[minSize / maxSize, maxSize / minSize]` (at the defaults, within
`[1/40, 40]`); the height is the bound itself in the adjusted branches,
and the recomputed width stays in range exactly because of the ratio
hypothesis. -/
theorem applySizeConstraints_bounds (cfg : RHConfig) (r w h : ℚ)
    (hmin : 0 < cfg.minSize) (hmm : cfg.minSize ≤ cfg.maxSize)
    (hr0 : 0 < r) (hr1 : cfg.minSize / cfg.maxSize ≤ r)
    (hr2 : r ≤ cfg.maxSize / cfg.minSize) :
    cfg.minSize ≤ (applySizeConstraints cfg r w h).1 ∧
    (applySizeConstraints cfg r w h).1 ≤ cfg.maxSize ∧
    cfg.minSize ≤ (applySizeConstraints cfg r w h).2 ∧
    (applySizeConstraints cfg r w h).2 ≤ cfg.maxSize := by
  have hM0 : 0 < cfg.maxSize := lt_of_lt_of_le hmin hmm
  have hr1m : cfg.minSize ≤ r * cfg.maxSize := (div_le_iff₀ hM0).mp hr1
  have hr2m : r * cfg.minSize ≤ cfg.maxSize := (le_div_iff₀ hmin).mp hr2
  simp only [applySizeConstraints]
  set m := cfg.minSize with hm
  set M := cfg.maxSize with hM
  set w2 := min M (max m w) with hw2def
  set h2 := min M (max m h) with hh2def
  have hw2l : m ≤ w2 := le_min hmm (le_max_left _ _)
  have hw2r : w2 ≤ M := min_le_left _ _
  have hh2l : m ≤ h2 := le_min hmm (le_max_left _ _)
  have hh2r : h2 ≤ M := min_le_left _ _
  split_ifs with hpre hgt hlt
  · have hgt2 : M * r < w2 := by
      have := (lt_div_iff₀ hr0).mp hgt
      linarith
    refine ⟨?_, ?_, ?_, ?_⟩ <;> dsimp only
    · linarith [mul_comm r M]
    · linarith
    · exact hmm
    · exact le_refl M
  · have hlt2 : w2 < m * r := (div_lt_iff₀ hr0).mp hlt
    refine ⟨?_, ?_, ?_, ?_⟩ <;> dsimp only
    · linarith
    · linarith [mul_comm r m]
    · exact le_refl m
    · exact hmm
  · exact ⟨hw2l, hw2r, not_lt.mp hlt, not_lt.mp hgt⟩
  · exact ⟨hw2l, hw2r, hh2l, hh2r⟩

/-- Witness for `applySizeConstraints_bounds`: the default configuration
with aspect ratio 2 and proposed size 3000x7 yields a size inside
`[50, 2000]` on both axes. -/
theorem applySizeConstraints_bounds_witness :
    (50 : ℚ) ≤ (applySizeConstraints {} 2 3000 7).1 ∧
    (applySizeConstraints {} 2 3000 7).1 ≤ 2000 ∧
    (50 : ℚ) ≤ (applySizeConstraints {} 2 3000 7).2 ∧
    (applySizeConstraints {} 2 3000 7).2 ≤ 2000 :=
  applySizeConstraints_bounds {} 2 3000 7 (by norm_num) (by norm_num)
    (by norm_num) (by norm_num) (by norm_num)

/-- C3 counterexample: with the default bounds `[50, 2000]` and aspect
ratio 100, the proposed size 2000x20 comes out as 5000x50 — the
recomputed width `minSize * aspectR = 5000` escapes `maxSize = 2000`,
so the claim that both dimensions always end within bounds is false. -/
theorem applySizeConstraints_cex :
    applySizeConstraints {} 100 2000 20 = (5000, 50) ∧
    ¬ ((applySizeConstraints {} 100 2000 20).1 ≤ (2000 : ℚ)) := by
  have hc : applySizeConstraints {} 100 2000 20 = (5000, 50) := by
    norm_num [applySizeConstraints, min_def, max_def]
  exact ⟨hc, by rw [hc]; norm_num⟩

/-- C4 (amended): with aspect-ratio preservation on and grid snapping off
(both the defaults), every size emitted by `resize:move` during a resize
sequence has positive height and width/height exactly equal to the
captured initial ratio `w0 / h0` — the constraint pipeline re-derives
height from the final width via the fixed ratio in every branch. -/
theorem resizeMoves_aspectR (cfg : RHConfig)
    (w0 h0 startX startY : ℚ) (moves : List (ℚ × ℚ)) (hw0 : 0 < w0)
    (hh0 : 0 < h0) (hmin : 0 < cfg.minSize) (hmm : cfg.minSize ≤ cfg.maxSize)
    (hpre : cfg.preserveAspect = true)
    (hsnap : cfg.snapToGrid = false) :
    ∀ s ∈ resizeMoves cfg w0 h0 (w0 / h0) startX startY moves,
      0 < s.2 ∧ s.1 / s.2 = w0 / h0 := by
  intro s hs
  rw [resizeMoves, List.mem_map] at hs
  obtain ⟨q, hq, rfl⟩ := hs
  have hr0 : 0 < w0 / h0 := div_pos hw0 hh0
  have hM0 : 0 < cfg.maxSize := lt_of_lt_of_le hmin hmm
  simp only [updateResizeSize, applySizeConstraints, hpre, hsnap,
    if_true, Bool.false_eq_true, if_false]
  set r := w0 / h0 with hrdef
  set w2 := min cfg.maxSize (max cfg.minSize (w0 + (q.1 - startX)))
    with hw2def
  have hw2l : cfg.minSize ≤ w2 := le_min hmm (le_max_left _ _)
  have hw2pos : 0 < w2 := lt_of_lt_of_le hmin hw2l
  split_ifs with hgt hlt
  · refine ⟨hM0, ?_⟩
    rw [mul_comm, mul_div_assoc, div_self (ne_of_gt hM0), mul_one]
  · refine ⟨hmin, ?_⟩
    rw [mul_comm, mul_div_assoc, div_self (ne_of_gt hmin), mul_one]
  · refine ⟨div_pos hw2pos hr0, ?_⟩
    rw [div_div_eq_mul_div, mul_comm, mul_div_assoc,
      div_self (ne_of_gt hw2pos), mul_one]

/-- Witness for `resizeMoves_aspectR`: resizing a 100x50 tile with the
default configuration, the sample emitted at pointer position (30, 5)
has positive height and width/height exactly equal to the captured
ratio 2. -/
theorem resizeMoves_aspectR_witness :
    0 < (updateResizeSize {} 100 50 (100 / 50) 0 0 30 5).2 ∧
    (updateResizeSize {} 100 50 (100 / 50) 0 0 30 5).1 /
        (updateResizeSize {} 100 50 (100 / 50) 0 0 30 5).2 = 100 / 50 :=
  resizeMoves_aspectR {} 100 50 0 0 [(30, 5)] (by norm_num)
    (by norm_num) (by norm_num) (by norm_num) rfl rfl
    (updateResizeSize {} 100 50 (100 / 50) 0 0 30 5)
    (by simp [resizeMoves])

/-- C4 counterexample: with grid snapping enabled (the pipeline the claim
also covers), a tile whose captured ratio is 1/1000 can emit the sample
(0, 0) — the constrained width 2 snaps to 0 and the derived height is 0,
so the emitted width/height is undefined (NaN in JavaScript) and the
ratio property fails at that sample. -/
theorem resizeMove_snap_cex :
    updateResizeSize { snapToGrid := true } 1 1000 (1 / 1000) 0 0 49 0 =
      (0, 0) ∧
    ¬ (0 < (updateResizeSize { snapToGrid := true } 1 1000 (1 / 1000)
        0 0 49 0).2) := by
  have hc : updateResizeSize { snapToGrid := true } 1 1000 (1 / 1000)
      0 0 49 0 = (0, 0) := by
    norm_num [updateResizeSize, applySizeConstraints, jsRound, min_def,
      max_def]
  exact ⟨hc, by rw [hc]; norm_num⟩

end ResizeHandler

namespace StateManager

/-- ImageStateRec is a persisted placement record: a `position` array, a
`size` array (kept as lists to model the `Array.isArray` / length checks)
and an optional `timestamp` stamped by `setImageState`. -/
structure ImageStateRec where
  position : List JsNum
  size : List JsNum
  timestamp : Option JsNum := none
deriving DecidableEq, Repr

/-- validateImageState embeds `StateManager.validateImageState`
(StateManager.js lines 256-277): a record is valid when its position is
an array of two finite numbers and its size an array of two finite,
strictly positive numbers (`size[i] <= 0` rejects); `none` models a
missing or non-object state.  The `timestamp` field is never
inspected. -/
def validateImageState : Option ImageStateRec → Bool
  | none => false
  | some s =>
      decide (s.position.length = 2) &&
      (s.position.getD 0 JsNum.nan).isFinite &&
      (s.position.getD 1 JsNum.nan).isFinite &&
      decide (s.size.length = 2) &&
      (s.size.getD 0 JsNum.nan).isFinite &&
      (s.size.getD 1 JsNum.nan).isFinite &&
      !(s.size.getD 0 JsNum.nan).jsLe (JsNum.fin 0) &&
      !(s.size.getD 1 JsNum.nan).jsLe (JsNum.fin 0)

/-- validateImageStates embeds `StateManager.validateImageStates`
(StateManager.js lines 235-249): keep exactly the entries whose record
validates. -/
def validateImageStates (m : List (String × ImageStateRec)) :
    List (String × ImageStateRec) :=
  m.filter (fun p => validateImageState (some p.2))

/-- expiredAt embeds the per-record deletion condition of
`StateManager.cleanupOldStates` (StateManager.js line 151):
`imageState.timestamp && imageState.timestamp < expiryTime` with
`expiryTime = now - 30 * 24 * 60 * 60 * 1000`; a missing or falsy (zero
or NaN) timestamp never qualifies. -/
def expiredAt (now : ℚ) (r : ImageStateRec) : Bool :=
  match r.timestamp with
  | none => false
  | some t => t.truthy && t.jsLt (JsNum.fin (now - 2592000000))

/-- cleanupOldStates embeds `StateManager.cleanupOldStates`
(StateManager.js lines 145-163) acting on the in-memory map. -/
def cleanupOldStates (now : ℚ) (m : List (String × ImageStateRec)) :
    List (String × ImageStateRec) :=
  m.filter (fun p => !expiredAt now p.2)

/-- validateTheme embeds `StateManager.validateTheme` (StateManager.js
lines 284-286). -/
def validateTheme (theme : String) : String :=
  if theme = "light" ∨ theme = "dark" then theme else "light"

/-- SMEvent models the events emitted by StateManager. -/
inductive SMEvent where
  | stateSaved (filename : String)
  | themeUpdated (theme : String)
  | stateReset
deriving DecidableEq, Repr

/-- SMState is the StateManager state: the in-memory validated map and
theme, plus the two persisted storage slots (`imageStates`, `theme`)
behind the storage abstraction. -/
structure SMState where
  images : List (String × ImageStateRec)
  theme : String
  storedImages : Option (List (String × ImageStateRec))
  storedTheme : Option String
deriving Repr

/-- getImageState embeds `StateManager.getImageState` (StateManager.js
lines 74-76). -/
def getImageState (st : SMState) (filename : String) :
    Option ImageStateRec :=
  assocGet st.images filename

/-- getAllImageStates embeds `StateManager.getAllImageStates`
(StateManager.js lines 169-171), a copy of the in-memory map. -/
def getAllImageStates (st : SMState) : List (String × ImageStateRec) :=
  st.images

/-- setImageState embeds `StateManager.setImageState` (StateManager.js
lines 83-102): reject invalid records with no event and no state change;
otherwise stamp with the current instant, write the updated map through
to storage, emit `state:saved` and return true. -/
def setImageState (now : ℚ) (st : SMState) (filename : String)
    (imageState : Option ImageStateRec) :
    Bool × SMState × List SMEvent :=
  if validateImageState imageState then
    match imageState with
    | none => (false, st, [])
    | some s =>
        let stamped := { s with timestamp := some (JsNum.fin now) }
        let images2 := assocPut st.images filename stamped
        (true,
          { st with images := images2, storedImages := some images2 },
          [SMEvent.stateSaved filename])
  else (false, st, [])

/-- setTheme embeds `StateManager.setTheme` (StateManager.js lines
116-127): normalize, no-op when the normalized value equals the current
theme, otherwise persist and emit `theme:updated`. -/
def setTheme (st : SMState) (theme : String) : SMState × List SMEvent :=
  let v := validateTheme theme
  if v ≠ st.theme then
    ({ st with theme := v, storedTheme := some v },
      [SMEvent.themeUpdated v])
  else (st, [])

/-- loadState embeds `StateManager.loadState` (StateManager.js lines
36-56) at instant `now`: read the stored map (default empty), keep only
valid records, normalize the stored theme (default `light`), then drop
expired records, re-persisting the map when the sweep removed
anything. -/
def loadState (now : ℚ) (st : SMState) : SMState :=
  let loaded := validateImageStates (st.storedImages.getD [])
  let themeV := validateTheme (st.storedTheme.getD "light")
  let cleaned := cleanupOldStates now loaded
  let stored2 :=
    if cleaned.length < loaded.length then some cleaned
    else st.storedImages
  { st with images := cleaned, theme := themeV, storedImages := stored2 }

end StateManager

/-- find?_map_update_self: updating every matching entry of an
association list commutes with looking the key up. -/
lemma find?_map_update_self {α : Type} (m : List (String × α))
    (k : String) (v : α) :
    (m.map (fun p => if p.1 == k then (p.1, v) else p)).find?
        (fun p => p.1 == k) =
      (m.find? (fun p => p.1 == k)).map (fun p => (p.1, v)) := by
  induction m with
  | nil => rfl
  | cons hd tl ih =>
      obtain ⟨a, b⟩ := hd
      by_cases hk : a = k
      · subst hk
        simp [List.find?]
      · have hbeq : (a == k) = false := by simp [hk]
        simpa [List.find?, hbeq, -List.find?_map] using ih

/-- assocGet_put_self: a write through `assocPut` is visible to
`assocGet` at the written key. -/
lemma assocGet_put_self {α : Type} (m : List (String × α)) (k : String)
    (v : α) : assocGet (assocPut m k v) k = some v := by
  unfold assocPut
  split_ifs with hf
  · unfold assocGet
    rw [find?_map_update_self]
    obtain ⟨p, hp⟩ := Option.isSome_iff_exists.mp hf
    rw [hp]
    rfl
  · unfold assocGet
    rw [List.find?_append]
    have hnone : m.find? (fun p => p.1 == k) = none := by
      cases hcase : m.find? (fun p => p.1 == k) with
      | none => rfl
      | some p => rw [hcase] at hf; simp at hf
    rw [hnone]
    simp [List.find?]

/-- assocGet_filter: a filtered association list still resolves a key to
the same first match, provided that match survives the filter. -/
lemma assocGet_filter {α : Type} (m : List (String × α))
    (p : String × α → Bool) (k : String) (v : α)
    (hget : assocGet m k = some v) (hp : p (k, v) = true) :
    assocGet (m.filter p) k = some v := by
  induction m with
  | nil => simp [assocGet] at hget
  | cons hd tl ih =>
      obtain ⟨a, b⟩ := hd
      by_cases hk : a = k
      · subst hk
        have hv : b = v := by
          simpa [assocGet, List.find?] using hget
        subst hv
        simp [List.filter_cons, hp, assocGet, List.find?]
      · have hbeq : (a == k) = false := by simp [hk]
        have hget2 : assocGet tl k = some v := by
          simpa [assocGet, List.find?, hbeq] using hget
        have ihr := ih hget2
        cases hph : p (a, b) with
        | true =>
            simpa [List.filter_cons, hph, assocGet, List.find?, hbeq]
              using ihr
        | false =>
            simpa [List.filter_cons, hph, assocGet, List.find?, hbeq]
              using ihr

namespace StateManager

/-- C5: round-trip persistence and rejection atomicity.  A record with
two finite coordinates and two strictly positive finite dimensions is
accepted: `setImageState` returns true, emits exactly `state:saved`, and
after a simulated reload at any instant within the 30-day expiry horizon
the lookup returns the record unchanged except for the added timestamp.
A record violating the invariant is rejected: `setImageState` returns
false, emits nothing and leaves the state (hence the stored map)
unchanged. -/
theorem setImageState_roundTrip (now now2 : ℚ) (st : SMState)
    (f : String) (s : ImageStateRec) :
    (validateImageState (some s) = true →
      (setImageState now st f (some s)).1 = true ∧
      (setImageState now st f (some s)).2.2 = [SMEvent.stateSaved f] ∧
      (now2 ≤ now + 2592000000 →
        getImageState (loadState now2 (setImageState now st f
            (some s)).2.1) f =
          some { s with timestamp := some (JsNum.fin now) })) ∧
    (validateImageState (some s) = false →
      (setImageState now st f (some s)).1 = false ∧
      (setImageState now st f (some s)).2.1 = st ∧
      (setImageState now st f (some s)).2.2 = []) := by
  constructor
  · intro hval
    refine ⟨by simp [setImageState, hval], by simp [setImageState, hval],
      ?_⟩
    intro hclock
    have hstampval : validateImageState
        (some { s with timestamp := some (JsNum.fin now) }) = true := hval
    simp only [setImageState, hval, if_true, loadState, getImageState,
      Option.getD_some]
    have h1 : assocGet (assocPut st.images f
        { s with timestamp := some (JsNum.fin now) }) f =
        some { s with timestamp := some (JsNum.fin now) } :=
      assocGet_put_self st.images f _
    have h2 : assocGet (validateImageStates (assocPut st.images f
        { s with timestamp := some (JsNum.fin now) })) f =
        some { s with timestamp := some (JsNum.fin now) } :=
      assocGet_filter _ _ _ _ h1 (by simpa using hstampval)
    have hlt : decide (now < now2 - 2592000000) = false :=
      decide_eq_false (by linarith)
    have hnotexp : expiredAt now2
        { s with timestamp := some (JsNum.fin now) } = false := by
      simp [expiredAt, JsNum.jsLt, hlt]
    exact assocGet_filter _ _ _ _ h2 (by simp [hnotexp])
  · intro hinval
    refine ⟨?_, ?_, ?_⟩ <;> simp [setImageState, hinval]

/-- Witness for `setImageState_roundTrip`: a concrete valid record saved
at instant 1000 and reloaded at instant 1000 comes back with only the
timestamp added; a record with a zero dimension is rejected with no
state change. -/
theorem setImageState_roundTrip_witness :
    getImageState (loadState 1000
        (setImageState 1000 ⟨[], "light", none, none⟩ "a.png"
          (some ⟨[JsNum.fin 10, JsNum.fin 20],
            [JsNum.fin 100, JsNum.fin 200], none⟩)).2.1) "a.png" =
      some ⟨[JsNum.fin 10, JsNum.fin 20], [JsNum.fin 100, JsNum.fin 200],
        some (JsNum.fin 1000)⟩ ∧
    (setImageState 1000 ⟨[], "light", none, none⟩ "b.png"
        (some ⟨[JsNum.fin 10, JsNum.fin 20],
          [JsNum.fin 0, JsNum.fin 200], none⟩)).1 = false := by
  constructor
  · exact ((setImageState_roundTrip 1000 1000 ⟨[], "light", none, none⟩
      "a.png" ⟨[JsNum.fin 10, JsNum.fin 20],
        [JsNum.fin 100, JsNum.fin 200], none⟩).1
      (by norm_num [validateImageState, JsNum.isFinite, JsNum.jsLe])).2.2
      (by norm_num)
  · exact ((setImageState_roundTrip 1000 1000 ⟨[], "light", none, none⟩
      "b.png" ⟨[JsNum.fin 10, JsNum.fin 20],
        [JsNum.fin 0, JsNum.fin 200], none⟩).2
      (by norm_num [validateImageState, JsNum.isFinite, JsNum.jsLe])).1

/-- C9 (amended): two successive `setTheme("dark")` calls leave the
theme at `dark` and emit `theme:updated` exactly once when the starting
theme differs from `dark`, and zero times when the theme is already
`dark` — the claim's "exactly once from any starting theme" holds only
for starting themes other than `dark`. -/
theorem setTheme_dark_twice (st : SMState) :
    ((setTheme st "dark").2 ++
        (setTheme (setTheme st "dark").1 "dark").2).length =
      (if st.theme = "dark" then 0 else 1) ∧
    (setTheme (setTheme st "dark").1 "dark").1.theme = "dark" := by
  by_cases hd : st.theme = "dark"
  · simp [setTheme, validateTheme, hd]
  · simp [setTheme, validateTheme, hd, Ne.symm hd]

/-- C9 counterexample: starting from theme `dark`, two successive
`setTheme("dark")` calls emit zero `theme:updated` events, not exactly
one. -/
theorem setTheme_dark_twice_cex :
    ((setTheme ⟨[], "dark", none, none⟩ "dark").2 ++
        (setTheme (setTheme ⟨[], "dark", none, none⟩ "dark").1
          "dark").2).length = 0 ∧
    ((setTheme ⟨[], "dark", none, none⟩ "dark").2 ++
        (setTheme (setTheme ⟨[], "dark", none, none⟩ "dark").1
          "dark").2).length ≠ 1 := by
  constructor <;> simp [setTheme, validateTheme]

/-- C10: a valid record whose timestamp is absent or falsy is never
removed by the load-time expiry sweep: if it is present in the loaded
(validated) map it is still in `getAllImageStates` after
`cleanupOldStates`, regardless of the load instant; and validation never
inspects the timestamp field. -/
theorem untimestamped_survives_cleanup (now : ℚ) (st : SMState)
    (m : List (String × ImageStateRec)) (f : String) (r : ImageStateRec)
    (hstored : st.storedImages = some m)
    (hget : assocGet (validateImageStates m) f = some r)
    (ht : (r.timestamp.getD JsNum.nan).truthy = false) :
    assocGet (getAllImageStates (loadState now st)) f = some r ∧
    validateImageState (some { r with timestamp := none }) =
      validateImageState (some r) := by
  constructor
  · simp only [loadState, getAllImageStates, hstored, Option.getD_some]
    apply assocGet_filter _ _ _ _ hget
    have hexp : expiredAt now r = false := by
      cases htm : r.timestamp with
      | none => simp [expiredAt, htm]
      | some t =>
          have htf : t.truthy = false := by simpa [htm] using ht
          simp [expiredAt, htm, htf]
    simp [hexp]
  · rfl

/-- Witness for `untimestamped_survives_cleanup`: a timestamp-free valid
record survives a load far in the future. -/
theorem untimestamped_survives_cleanup_witness :
    assocGet (getAllImageStates (loadState 99999999999999
        ⟨[], "light",
          some [("a.png", ⟨[JsNum.fin 1, JsNum.fin 2],
            [JsNum.fin 3, JsNum.fin 4], none⟩)], none⟩)) "a.png" =
      some ⟨[JsNum.fin 1, JsNum.fin 2], [JsNum.fin 3, JsNum.fin 4],
        none⟩ :=
  (untimestamped_survives_cleanup 99999999999999 _ _ "a.png"
    ⟨[JsNum.fin 1, JsNum.fin 2], [JsNum.fin 3, JsNum.fin 4], none⟩
    rfl
    (by norm_num [validateImageStates, validateImageState, assocGet,
      List.find?, JsNum.isFinite, JsNum.jsLe])
    rfl).1

end StateManager

namespace StorageManager

/-- StoreVal abstracts a parsed stored value as seen by
`StorageManager.handleQuotaExceeded`: whether it is an object and its
optional numeric `timestamp` field. -/
structure StoreVal where
  isObj : Bool
  timestamp : Option ℚ
deriving DecidableEq, Repr

/-- LSState models the browser localStorage visible to StorageManager: a
key/value map plus a capacity; `setItem` raises `QuotaExceededError`
exactly when the write would leave more entries than the capacity allows
(an abstraction of the byte quota; only the failure signal matters to the
code under verification). -/
structure LSState where
  entries : List (String × StoreVal)
  capacity : ℕ
deriving DecidableEq, Repr

/-- lsSetItem models `localStorage.setItem`: `none` is the thrown
`QuotaExceededError`. -/
def lsSetItem (ls : LSState) (k : String) (v : StoreVal) :
    Option LSState :=
  let entries2 := assocPut ls.entries k v
  if entries2.length ≤ ls.capacity then some { ls with entries := entries2 }
  else none

/-- SMgr is the StorageManager state (EventBus.js lines 175-180): the
underlying localStorage, the in-memory fallback map and the availability
flag probed at construction. -/
structure SMgr where
  ls : LSState
  fallbackStorage : List (String × StoreVal)
  isAvailable : Bool
deriving DecidableEq, Repr

/-- STrace records the observable steps of a `set` call: each attempted
localStorage write with its outcome, each entry removed by the quota
cleanup pass, and each write into the in-memory fallback map. -/
inductive STrace where
  | writeAttempt (key : String) (ok : Bool)
  | removedOld (key : String)
  | fallbackWrite (key : String)
deriving DecidableEq, Repr

/-- smKeys embeds `StorageManager.keys` (EventBus.js lines 328-339). -/
def smKeys (st : SMgr) : List String :=
  if st.isAvailable then st.ls.entries.map (·.1)
  else st.fallbackStorage.map (·.1)

/-- smGet embeds `StorageManager.get` (EventBus.js lines 204-237)
restricted to the parsed-value view that the cleanup pass consumes. -/
def smGet (st : SMgr) (k : String) : Option StoreVal :=
  if st.isAvailable then assocGet st.ls.entries k
  else assocGet st.fallbackStorage k

/-- smRemove embeds `StorageManager.remove` (EventBus.js lines 286-301):
delete from localStorage when available, and always from the fallback
map. -/
def smRemove (st : SMgr) (k : String) : SMgr :=
  { st with
    ls := { st.ls with entries := assocRemove st.ls.entries k },
    fallbackStorage := assocRemove st.fallbackStorage k }

/-- oldEntry is the cleanup condition of
`StorageManager.handleQuotaExceeded` (EventBus.js line 409):
`data && typeof data === "object" && data.timestamp && data.timestamp <
thirtyDaysAgo`. -/
def oldEntry (now : ℚ) (v : StoreVal) : Bool :=
  v.isObj &&
    (match v.timestamp with
     | none => false
     | some t => decide (t ≠ 0) && decide (t < now - 2592000000))

/-- cleanupPass embeds the key sweep of
`StorageManager.handleQuotaExceeded` (EventBus.js lines 400-416): walk a
snapshot of the keys, removing every entry satisfying `oldEntry`, and
count the removals. -/
def cleanupPass (now : ℚ) (st : SMgr) : SMgr × ℕ × List STrace :=
  (smKeys st).foldl
    (fun acc k =>
      match smGet acc.1 k with
      | some v =>
          if oldEntry now v then
            (smRemove acc.1 k, acc.2.1 + 1, acc.2.2 ++ [STrace.removedOld k])
          else acc
      | none => acc)
    (st, 0, [])

/-- storageSet embeds `StorageManager.set` (EventBus.js lines 245-279)
together with the inlined body of `handleQuotaExceeded` (lines 397-432),
with which it is mutually recursive in the source (`fuel` bounds the
recursion depth; two units suffice, because a second cleanup pass over
the already-cleaned store removes nothing).  On a quota failure the
source calls `handleQuotaExceeded` and returns false regardless of the
retry's outcome; the cleanup retries the write once only when the pass
removed at least one entry; the retry is `this.set`, which catches its
own quota error internally, so the source's `catch (retryError)` block —
the only place that would have written the value to the fallback map —
is unreachable and is therefore absent from the reachable semantics
modelled here.  The model covers only the quota failure mode of
`setItem`; `set` never throws. -/
def storageSet (fuel : ℕ) (now : ℚ) (st : SMgr) (k : String)
    (v : StoreVal) : Bool × SMgr × List STrace :=
  match fuel with
  | 0 => (false, st, [])
  | fuel2 + 1 =>
      if st.isAvailable then
        match lsSetItem st.ls k v with
        | some ls2 => (true, { st with ls := ls2 },
            [STrace.writeAttempt k true])
        | none =>
            let c := cleanupPass now st
            if 0 < c.2.1 then
              let r := storageSet fuel2 now c.1 k v
              (false, r.2.1, STrace.writeAttempt k false :: (c.2.2 ++ r.2.2))
            else (false, c.1, STrace.writeAttempt k false :: c.2.2)
      else
        (true, { st with fallbackStorage := assocPut st.fallbackStorage k v },
          [STrace.fallbackWrite k])

/-- handleQuotaExceeded embeds `StorageManager.handleQuotaExceeded`
(EventBus.js lines 397-432) as a separate function (see `storageSet` for
the inlined recursion): cleanup pass, then a single retry of the write
when anything was removed. -/
def handleQuotaExceeded (fuel : ℕ) (now : ℚ) (st : SMgr) (k : String)
    (v : StoreVal) : SMgr × List STrace :=
  let c := cleanupPass now st
  if 0 < c.2.1 then
    let r := storageSet fuel now c.1 k v
    (r.2.1, c.2.2 ++ r.2.2)
  else (c.1, c.2.2)

/-- storageSet_quota_eq: on a quota failure, `set` defers to
`handleQuotaExceeded` and returns false, matching the source split into
two methods. -/
lemma storageSet_quota_eq (fuel : ℕ) (now : ℚ) (st : SMgr) (k : String)
    (v : StoreVal) (hav : st.isAvailable = true)
    (hq : lsSetItem st.ls k v = none) :
    storageSet (fuel + 1) now st k v =
      (false, (handleQuotaExceeded fuel now st k v).1,
        STrace.writeAttempt k false ::
          (handleQuotaExceeded fuel now st k v).2) := by
  simp only [storageSet, handleQuotaExceeded, hav, hq, if_true]
  split_ifs <;> rfl

end StorageManager

namespace StorageManager

/-- C7: failing input for quota-exceeded handling.  With localStorage at
capacity (one slot, already holding a fresh object stored at instant
999999) and no entry older than 30 days, `set("k", v)` at instant
1000000 hits the quota, runs the cleanup pass, removes nothing, and then
neither retries the write nor stores the value in the in-memory fallback
map: it returns false with the value dropped entirely, and the trace
shows exactly one write attempt and no fallback write.  The claim's
promised retry-then-fallback never happens because the source retries
only when the cleanup removed at least one entry, and because the
`catch (retryError)` fallback in `handleQuotaExceeded` is dead code
(`this.set` never throws). -/
theorem storageSet_quota_lost_cex :
    storageSet 5 1000000
        ⟨⟨[("old", ⟨true, some 999999⟩)], 1⟩, [], true⟩ "k"
        ⟨true, some 1000000⟩ =
      (false, ⟨⟨[("old", ⟨true, some 999999⟩)], 1⟩, [], true⟩,
        [STrace.writeAttempt "k" false]) ∧
    (storageSet 5 1000000
        ⟨⟨[("old", ⟨true, some 999999⟩)], 1⟩, [], true⟩ "k"
        ⟨true, some 1000000⟩).2.1.fallbackStorage = [] := by
  have h : storageSet 5 1000000
      ⟨⟨[("old", ⟨true, some 999999⟩)], 1⟩, [], true⟩ "k"
      ⟨true, some 1000000⟩ =
      (false, ⟨⟨[("old", ⟨true, some 999999⟩)], 1⟩, [], true⟩,
        [STrace.writeAttempt "k" false]) := by
    norm_num [storageSet, lsSetItem, assocPut, cleanupPass, smKeys, smGet,
      smRemove, oldEntry, assocGet, List.find?,
      show (("old" : String) == "k") = false from rfl]
  exact ⟨h, by rw [h]⟩

end StorageManager

namespace EventBus

/-- HAction is a deep embedding of the behaviours a subscriber callback
can exhibit during `emit`: return normally, throw, unsubscribe some
listener, or subscribe a new one — the latter two cover callbacks that
mutate the listener map mid-emission, which the snapshot copy in `emit`
must tolerate. -/
inductive HAction where
  | hok
  | hthrow
  | unsub (event : String) (target : ℕ)
  | sub (event : String) (newId : ℕ)
deriving DecidableEq, Repr

/-- Listener pairs a callback identity (standing for the
callback/context pair of the source) with its behaviour. -/
structure Listener where
  hid : ℕ
  act : HAction
deriving DecidableEq, Repr

/-- BusLog records the observable effects of `emit`: callback
invocations, and errors caught and logged by the per-callback
try/catch. -/
inductive BusLog where
  | invoked (hid : ℕ)
  | errorLogged (hid : ℕ)
deriving DecidableEq, Repr

/-- BusState is the EventBus state: the event-name-to-listeners map
(`this.events`) plus the log of observable effects. -/
structure BusState where
  events : List (String × List Listener)
  log : List BusLog
deriving DecidableEq, Repr

/-- busOn embeds `EventBus.on` (EventBus.js lines 19-37): create the
listener array on demand and push the listener at the end. -/
def busOn (st : BusState) (event : String) (l : Listener) : BusState :=
  match assocGet st.events event with
  | none => { st with events := assocPut st.events event [l] }
  | some ls => { st with events := assocPut st.events event (ls ++ [l]) }

/-- removeFirst drops the first listener with the given identity,
mirroring the `findIndex` + `splice(index, 1)` of `EventBus.off`. -/
def removeFirst (ls : List Listener) (target : ℕ) : List Listener :=
  match ls with
  | [] => []
  | l :: rest =>
      if l.hid = target then rest else l :: removeFirst rest target

/-- busOff embeds `EventBus.off` (EventBus.js lines 60-85): remove the
first matching listener and delete the event key when its array becomes
empty; no match leaves the state untouched. -/
def busOff (st : BusState) (event : String) (target : ℕ) : BusState :=
  match assocGet st.events event with
  | none => st
  | some ls =>
      match ls.findIdx? (fun l => l.hid == target) with
      | none => st
      | some _ =>
          let ls2 := removeFirst ls target
          if ls2.length = 0 then
            { st with events := assocRemove st.events event }
          else { st with events := assocPut st.events event ls2 }

/-- callbackRun is the single callback invocation
`callback.call(context, data)`: it may mutate the bus (subscribe or
unsubscribe) or throw. -/
def callbackRun (l : Listener) (st : BusState) : Except Unit BusState :=
  match l.act with
  | HAction.hok => Except.ok st
  | HAction.hthrow => Except.error ()
  | HAction.unsub e t => Except.ok (busOff st e t)
  | HAction.sub e i => Except.ok (busOn st e ⟨i, HAction.hok⟩)

/-- emitStep is one iteration of the `listenersCopy.forEach` loop of
`EventBus.emit` (EventBus.js lines 109-115): record the invocation, run
the callback, and on a thrown error log it and continue instead of
propagating. -/
def emitStep (acc : BusState) (l : Listener) : BusState :=
  let acc1 := { acc with log := acc.log ++ [BusLog.invoked l.hid] }
  match callbackRun l acc1 with
  | Except.ok st2 => st2
  | Except.error _ =>
      { acc1 with log := acc1.log ++ [BusLog.errorLogged l.hid] }

/-- emit embeds `EventBus.emit` (EventBus.js lines 92-116): nothing
happens without listeners; otherwise the loop runs over a snapshot copy
of the listener array taken before the first invocation. -/
def emit (st : BusState) (event : String) : BusState :=
  match assocGet st.events event with
  | none => st
  | some listeners => listeners.foldl emitStep st

/-- invokedIds projects the invocation order out of the log. -/
def invokedIds (log : List BusLog) : List ℕ :=
  log.filterMap (fun e =>
    match e with
    | BusLog.invoked i => some i
    | _ => none)

/-- subscribersAt is the listener snapshot for an event. -/
def subscribersAt (st : BusState) (event : String) : List Listener :=
  (assocGet st.events event).getD []

/-- busOn_log: subscribing never touches the log. -/
lemma busOn_log (st : BusState) (e : String) (l : Listener) :
    (busOn st e l).log = st.log := by
  unfold busOn
  cases hm : assocGet st.events e <;> rfl

/-- busOff_log: unsubscribing never touches the log. -/
lemma busOff_log (st : BusState) (e : String) (t : ℕ) :
    (busOff st e t).log = st.log := by
  unfold busOff
  cases hm : assocGet st.events e with
  | none => rfl
  | some ls =>
      cases hf : ls.findIdx? (fun l => l.hid == t) with
      | none => simp only [hf]
      | some i =>
          simp only [hf]
          split_ifs <;> rfl

/-- emitStep_invoked: one loop iteration appends exactly the processed
listener's invocation to the invocation order, whatever the callback
does. -/
lemma emitStep_invoked (acc : BusState) (l : Listener) :
    invokedIds (emitStep acc l).log = invokedIds acc.log ++ [l.hid] := by
  cases hact : l.act <;>
    simp [emitStep, callbackRun, hact, invokedIds, busOn_log, busOff_log,
      List.filterMap_append]

/-- foldl_emitStep_invoked: the loop invokes exactly the snapshot, in
order. -/
lemma foldl_emitStep_invoked (ls : List Listener) (acc : BusState) :
    invokedIds (ls.foldl emitStep acc).log =
      invokedIds acc.log ++ ls.map Listener.hid := by
  induction ls generalizing acc with
  | nil => simp
  | cons l rest ih =>
      simp [List.foldl_cons, ih, emitStep_invoked, List.append_assoc]

/-- emitStep_log_mono: loop iterations only append to the log. -/
lemma emitStep_log_mono (acc : BusState) (l : Listener) (x : BusLog)
    (hx : x ∈ acc.log) : x ∈ (emitStep acc l).log := by
  cases hact : l.act <;>
    simp [emitStep, callbackRun, hact, busOn_log, busOff_log, hx]

/-- foldl_emitStep_log_mono: the whole loop only appends to the log. -/
lemma foldl_emitStep_log_mono (ls : List Listener) (acc : BusState)
    (x : BusLog) (hx : x ∈ acc.log) :
    x ∈ (ls.foldl emitStep acc).log := by
  induction ls generalizing acc with
  | nil => simpa using hx
  | cons l rest ih =>
      exact ih (emitStep acc l) (emitStep_log_mono acc l x hx)

/-- emitStep_throw_logged: a throwing callback gets its error caught and
logged by the iteration that ran it. -/
lemma emitStep_throw_logged (acc : BusState) (l : Listener)
    (h : l.act = HAction.hthrow) :
    BusLog.errorLogged l.hid ∈ (emitStep acc l).log := by
  simp [emitStep, callbackRun, h]

/-- foldl_emitStep_throw: every throwing listener of the snapshot ends up
with a logged error after the loop. -/
lemma foldl_emitStep_throw (ls : List Listener) (acc : BusState) :
    ∀ l ∈ ls, l.act = HAction.hthrow →
      BusLog.errorLogged l.hid ∈ (ls.foldl emitStep acc).log := by
  induction ls generalizing acc with
  | nil => simp
  | cons hd rest ih =>
      intro l hl hact
      rcases List.mem_cons.mp hl with h1 | h2
      · subst h1
        exact foldl_emitStep_log_mono rest (emitStep acc l) _
          (emitStep_throw_logged acc l hact)
      · exact ih (emitStep acc hd) l h2 hact

/-- C8: `emit` invokes exactly the snapshot of subscribers registered at
emit time, in subscription order — whatever the callbacks do, including
throwing, unsubscribing or subscribing mid-emission — and a throwing
callback has its error caught and logged while every sibling still runs;
`emit` itself is a total function, so no exception propagates to the
emitter. -/
theorem emit_snapshot_isolated (st : BusState) (event : String) :
    invokedIds (emit st event).log =
      invokedIds st.log ++ (subscribersAt st event).map Listener.hid ∧
    (∀ l ∈ subscribersAt st event, l.act = HAction.hthrow →
      BusLog.errorLogged l.hid ∈ (emit st event).log) := by
  unfold emit subscribersAt
  cases hm : assocGet st.events event with
  | none => simp
  | some listeners =>
      constructor
      · simpa using foldl_emitStep_invoked listeners st
      · intro l hl hact
        exact foldl_emitStep_throw listeners st l (by simpa using hl) hact

/-- Witness for `emit_snapshot_isolated`: a bus with a throwing first
listener and a normal second one invokes both in order and logs the
error. -/
theorem emit_snapshot_isolated_witness :
    invokedIds (emit ⟨[("evt", [⟨1, HAction.hthrow⟩, ⟨2, HAction.hok⟩])],
        []⟩ "evt").log = [1, 2] ∧
    BusLog.errorLogged 1 ∈
      (emit ⟨[("evt", [⟨1, HAction.hthrow⟩, ⟨2, HAction.hok⟩])], []⟩
        "evt").log := by
  have h := emit_snapshot_isolated
    ⟨[("evt", [⟨1, HAction.hthrow⟩, ⟨2, HAction.hok⟩])], []⟩ "evt"
  constructor
  · exact h.1.trans (by decide)
  · exact h.2 ⟨1, HAction.hthrow⟩ (by decide) rfl

end EventBus
